import Mathlib

/-!
Verification of the MitsukeLive real-time object-detection pipeline.

This file gives a shallow embedding of the numeric / control-flow core of the
library (coordinate transforms, the YOLO output decoder, the heuristic depth
estimator, the object-size registry and the detection-loop state machine) and
proves the specification claims about it.

Modelling conventions:
* JavaScript numbers are modelled exactly: a finite value is a rational, and
  the three non-finite values (NaN, Infinity, -Infinity) are explicit
  constructors of `JSNum`.  Functions whose interesting inputs are always
  finite take plain rationals; their `Number.isFinite` checks on such
  arguments are then vacuously true and noted in comments.
* Functions that throw `MLInternalError` are modelled with `Except MLError`.
* `Math.sqrt` is modelled with `Real.sqrt`; the functions that use it are the
  only noncomputable ones.
-/

namespace MitsukeLive

/-- Model of a JavaScript number: a finite value (an exact rational) or one of
the non-finite values NaN, Infinity and -Infinity. -/
inductive JSNum where
  | num (val : ℚ)
  | nan
  | inf
  | negInf
deriving DecidableEq

/-- Model of `Number.isFinite`. -/
def JSNum.isFinite : JSNum → Bool
  | .num _ => true
  | _ => false

/-- Model of JavaScript boolean coercion of a number: `0` and `NaN` are falsy,
every other number (including the infinities) is truthy. -/
def JSNum.truthy : JSNum → Bool
  | .num q => decide (q ≠ 0)
  | .nan => false
  | .inf => true
  | .negInf => true

/-- Model of the JavaScript comparison `x <= 0` (false for NaN and Infinity,
true for -Infinity). -/
def JSNum.leZero : JSNum → Bool
  | .num q => decide (q ≤ 0)
  | .nan => false
  | .inf => false
  | .negInf => true

/-- Model of JavaScript division on numbers (exact on finite operands; the
IEEE rules for the non-finite cases; division by zero with an unsigned model
zero yields Infinity by the sign of the numerator). -/
def JSNum.div : JSNum → JSNum → JSNum
  | .nan, _ => .nan
  | _, .nan => .nan
  | .inf, .inf => .nan
  | .inf, .negInf => .nan
  | .negInf, .inf => .nan
  | .negInf, .negInf => .nan
  | .inf, .num q => if q < 0 then .negInf else .inf
  | .negInf, .num q => if q < 0 then .inf else .negInf
  | .num _, .inf => .num 0
  | .num _, .negInf => .num 0
  | .num a, .num b =>
      if b = 0 then (if a = 0 then .nan else if a < 0 then .negInf else .inf)
      else .num (a / b)

/-- Model of `Math.min` on two numbers: NaN if either operand is NaN,
otherwise the smaller value. -/
def JSNum.min : JSNum → JSNum → JSNum
  | .nan, _ => .nan
  | _, .nan => .nan
  | .negInf, _ => .negInf
  | _, .negInf => .negInf
  | .inf, b => b
  | a, .inf => a
  | .num a, .num b => .num (Min.min a b)

/-- Model of JavaScript multiplication of a finite value by a possibly
non-finite one (the only multiplication shape the remapper performs). -/
def JSNum.mulQ (a : ℚ) : JSNum → JSNum
  | .num b => .num (a * b)
  | .nan => .nan
  | .inf => if a = 0 then .nan else if a < 0 then .negInf else .inf
  | .negInf => if a = 0 then .nan else if a < 0 then .inf else .negInf

/-- JavaScript truthiness of an optional number (an absent field is falsy). -/
def jsOptTruthy : Option JSNum → Bool
  | none => false
  | some v => v.truthy

/-- The test `x <= 0` on an optional number (false when the field is absent;
in the code the check is only reached when the field is truthy). -/
def jsOptLeZero : Option JSNum → Bool
  | none => false
  | some v => v.leZero

/-- Error codes of the `MLInternalError` values thrown by the modelled
functions (error-messages keys from both variants of each module). -/
inductive MLError where
  | INVALID_IMAGE_DIMENSIONS
  | RESIZED_IMAGE_EXCEEDS_TARGET
  | INVALID_TARGET_IMAGE_SIZE
  | INPUT_MUST_BE_3D_TENSOR
  | INVALID_COORDINATE_VALUES
  | INVALID_SCALE_VALUE
  | INVALID_PADDING_VALUES
  | NEGATIVE_WIDTH_OR_HEIGHT
  | INVALID_CROPPED_REGION_SIZE
  | CROPPED_REGION_MUST_BE_POSITIVE
  | INVALID_CANVAS_SIZE
  | INVALID_LETTERBOX_INFO
  | INVALID_RADIAN_VALUE
  | INVALID_BOUNDING_BOX_SIZE
  | INVALID_FOCAL_LENGTH
  | INVALID_IMAGE_SIZE
  | INVALID_BASE_DEPTH
  | INVALID_CLASS_NAME
  | INVALID_REAL_SIZE
  | FOCAL_LENGTH_INVALID
deriving DecidableEq

/-! ## yolo-helper.ts: letterbox transform and coordinate remapping -/

/-- Result record of `calculateOptimalScale`.  `scaledWidth` and
`scaledHeight` are the `Math.round`ed dimensions, hence integers. -/
structure ScaleInfo where
  scaleRatio : ℚ
  scaledWidth : ℤ
  scaledHeight : ℤ
deriving DecidableEq

/-- Model of `calculateOptimalScale` (yolo-helper.ts lines 36-54): throws on
non-positive source dimensions, otherwise returns the aspect-preserving scale
`min(targetW/srcW, targetH/srcH)` and the rounded scaled dimensions.
`Math.round` (round half toward positive infinity) is Mathlib `round`. -/
def calculateOptimalScale (originalWidth originalHeight targetWidth targetHeight : ℚ) :
    Except MLError ScaleInfo :=
  if originalWidth ≤ 0 ∨ originalHeight ≤ 0 then .error .INVALID_IMAGE_DIMENSIONS
  else
    let scaleRatio := Min.min (targetWidth / originalWidth) (targetHeight / originalHeight)
    .ok ⟨scaleRatio, round (originalWidth * scaleRatio), round (originalHeight * scaleRatio)⟩

/-- Result record of `calculatePadding`: `top`/`left` are floored (integers),
`bottom`/`right` are the remainders. -/
structure PaddingInfo where
  top : ℤ
  left : ℤ
  bottom : ℚ
  right : ℚ
deriving DecidableEq

/-- Model of `calculatePadding` (yolo-helper.ts lines 66-94): centred padding
amounts for the letterbox, failing when the scaled image exceeds the target. -/
def calculatePadding (scaledWidth scaledHeight letterboxWidth letterboxHeight : ℚ) :
    Except MLError PaddingInfo :=
  if scaledWidth > letterboxWidth ∨ scaledHeight > letterboxHeight then
    .error .RESIZED_IMAGE_EXCEEDS_TARGET
  else
    let paddingWidth := letterboxWidth - scaledWidth
    let paddingHeight := letterboxHeight - scaledHeight
    let top := ⌊paddingHeight / 2⌋
    let left := ⌊paddingWidth / 2⌋
    .ok ⟨top, left, paddingHeight - top, paddingWidth - left⟩

/-- The `LetterboxInfo` record produced by `letterboxTransform`. -/
structure LetterboxInfoQ where
  scale : ℚ
  top : ℤ
  left : ℤ
  scaledWidth : ℤ
  scaledHeight : ℤ
deriving DecidableEq

/-- Model of `letterboxTransform` (yolo-helper.ts lines 103-157) at the level
of tensor shapes: the input tensor is represented by its shape list
`[height, width, channels]` (tensor contents do not affect any claim), the
target `letterboxShape` is `[height, width]`.  Returns the padded output shape
together with the `LetterboxInfo`.  The intermediate resize and the zero
padding are pure shape arithmetic here; the dispose of the resized buffer has
no observable effect in this model. -/
def letterboxTransform (shape : List ℕ) (letterboxShape : ℚ × ℚ) :
    Except MLError (List ℚ × LetterboxInfoQ) :=
  if shape.length ≠ 3 then .error .INPUT_MUST_BE_3D_TENSOR
  else if letterboxShape.2 ≤ 0 ∨ letterboxShape.1 ≤ 0 then .error .INVALID_TARGET_IMAGE_SIZE
  else
    match shape with
    | [originalHeight, originalWidth, channels] =>
      match calculateOptimalScale (originalWidth : ℚ) (originalHeight : ℚ)
          letterboxShape.2 letterboxShape.1 with
      | .error e => .error e
      | .ok si =>
        match calculatePadding (si.scaledWidth : ℚ) (si.scaledHeight : ℚ)
            letterboxShape.2 letterboxShape.1 with
        | .error e => .error e
        | .ok pad =>
          .ok ([(si.scaledHeight : ℚ) + (pad.top : ℚ) + pad.bottom,
                (si.scaledWidth : ℚ) + (pad.left : ℚ) + pad.right,
                (channels : ℚ)],
               ⟨si.scaleRatio, pad.top, pad.left, si.scaledWidth, si.scaledHeight⟩)
    | _ => .error .INPUT_MUST_BE_3D_TENSOR

/-- Rectangle with exact rational coordinates. -/
structure RectQ where
  x : ℚ
  y : ℚ
  width : ℚ
  height : ℚ
deriving DecidableEq

/-- Model of `letterboxToOriginal` (yolo-helper.ts lines 171-209).  The inputs
are rationals, so the `Number.isFinite` checks of the source are vacuously
satisfied; the remaining checks (`scale <= 0`, negative width/height) are kept
in source order. -/
def letterboxToOriginal (x y width height scale top left : ℚ) : Except MLError RectQ :=
  if scale ≤ 0 then .error .INVALID_SCALE_VALUE
  else if width < 0 ∨ height < 0 then .error .NEGATIVE_WIDTH_OR_HEIGHT
  else .ok ⟨(x - left) / scale, (y - top) / scale, width / scale, height / scale⟩

/-- Rectangle whose coordinates may be non-finite (output of
`originalToCanvas`, whose scale factor can be NaN or Infinity when the canvas
dimensions are). -/
structure JSRect where
  x : JSNum
  y : JSNum
  width : JSNum
  height : JSNum
deriving DecidableEq

/-- Pixel dimensions of the canvas element. -/
structure CanvasSize where
  width : JSNum
  height : JSNum
deriving DecidableEq

/-- Model of `originalToCanvas` (yolo-helper.ts lines 219-265).  The rectangle
always has finite coordinates at the call sites (validated upstream), so it is
a `RectQ`; the cropped size and canvas size are arbitrary JS numbers and all
their source checks are modelled.  Note the source checks `canvas <= 0` only,
so a NaN or Infinity canvas dimension passes validation and propagates into
the outputs through `JSNum` arithmetic, exactly as in the code. -/
def originalToCanvas (rect : RectQ) (canvas : CanvasSize) (croppedWidth croppedHeight : JSNum) :
    Except MLError JSRect :=
  if !croppedWidth.isFinite || !croppedHeight.isFinite then .error .INVALID_CROPPED_REGION_SIZE
  else if croppedWidth.leZero || croppedHeight.leZero then .error .CROPPED_REGION_MUST_BE_POSITIVE
  else if canvas.width.leZero || canvas.height.leZero then .error .INVALID_CANVAS_SIZE
  else if rect.width < 0 ∨ rect.height < 0 then .error .NEGATIVE_WIDTH_OR_HEIGHT
  else
    let scale := JSNum.min (canvas.width.div croppedWidth) (canvas.height.div croppedHeight)
    .ok ⟨JSNum.mulQ rect.x scale, JSNum.mulQ rect.y scale,
         JSNum.mulQ rect.width scale, JSNum.mulQ rect.height scale⟩

/-- The constant `RADIANS_TO_DEGREES = 180 / Math.PI`. -/
noncomputable def RADIANS_TO_DEGREES : ℝ := 180 / Real.pi

/-- Model of `convertRadiansToDegrees` (yolo-helper.ts lines 19-25) on a
finite input (its non-finite check is vacuous for a rational argument; at the
only call site the argument has already been validated finite). -/
noncomputable def convertRadiansToDegrees (radians : ℚ) : ℝ :=
  (radians : ℝ) * RADIANS_TO_DEGREES

/-- Input shape of one raw detection fed to `transformToCanvas`: the bounding
box may be absent or malformed, and all numeric fields are JS numbers. -/
structure RawDetection where
  boundingBox : Option (List JSNum)
  angle : JSNum
  score : JSNum
deriving DecidableEq

/-- Output shape of `transformToCanvas`: canvas-space bounding box (possibly
non-finite when the canvas dimensions are), the angle converted from radians
to degrees, and the (validated, hence finite) score. -/
structure CanvasDetection where
  boundingBox : JSRect
  angle : ℝ
  score : ℚ

/-- The `LetterboxInfo` record as consumed by `transformToCanvas`: every field
arrives as an arbitrary JS number and the two crop dimensions are optional
(they are attached downstream of the letterbox transform). -/
structure LetterboxInfoJS where
  scale : JSNum
  top : JSNum
  left : JSNum
  scaledWidth : JSNum
  scaledHeight : JSNum
  croppedWidth : Option JSNum
  croppedHeight : Option JSNum
deriving DecidableEq

/-- Finite value of a JS number (only ever read under an `isFinite` guard). -/
def JSNum.toQ : JSNum → ℚ
  | .num q => q
  | _ => 0

/-- Loop body of `transformToCanvas` (yolo-helper.ts lines 308-362) for one
detection, with the already-validated global inputs (`scale`, `top`, `left`
are finite with `scale > 0` at the call site; the crop dimensions passed
truthiness and sign checks but may still be Infinity).  Returns `none` when
the item is skipped: basic validation failure (`continue`) or a throw from
the remap chain (`catch` ... `continue`). -/
noncomputable def transformDetectionItem (scale top left : ℚ)
    (croppedWidth croppedHeight : JSNum) (canvas : CanvasSize) (p : RawDetection) :
    Option CanvasDetection :=
  match p.boundingBox with
  | none => none
  | some bb =>
    if bb.length ≠ 4 || bb.any (fun v => !v.isFinite) || !p.score.isFinite || !p.angle.isFinite
    then none
    else
      -- all four box entries, the score and the angle are finite here
      let x := (bb.getD 0 .nan).toQ
      let y := (bb.getD 1 .nan).toQ
      let width := (bb.getD 2 .nan).toQ
      let height := (bb.getD 3 .nan).toQ
      if width < 0 ∨ height < 0 then none
      else
        match letterboxToOriginal x y width height scale top left with
        | .error _ => none
        | .ok originalRect =>
          match originalToCanvas originalRect canvas croppedWidth croppedHeight with
          | .error _ => none
          | .ok canvasRect =>
            some ⟨canvasRect, convertRadiansToDegrees p.angle.toQ, p.score.toQ⟩

/-- Canvas validation of `transformToCanvas` (yolo-helper.ts line 285). -/
def codeCanvasBad (canvas : CanvasSize) : Bool :=
  canvas.width.leZero || canvas.height.leZero

/-- Letterbox-info validation of `transformToCanvas` (yolo-helper.ts lines
292-303): `!isFinite(scale) || scale <= 0 || !isFinite(top) ||
!isFinite(left) || !croppedWidth || !croppedHeight || croppedWidth <= 0 ||
croppedHeight <= 0`. -/
def codeLetterboxBad (lb : LetterboxInfoJS) : Bool :=
  !lb.scale.isFinite || lb.scale.leZero || !lb.top.isFinite || !lb.left.isFinite ||
  !(jsOptTruthy lb.croppedWidth) || !(jsOptTruthy lb.croppedHeight) ||
  jsOptLeZero lb.croppedWidth || jsOptLeZero lb.croppedHeight

/-- Model of `transformToCanvas` (yolo-helper.ts lines 275-365): empty input
short-circuits to `[]`; then the canvas and the letterbox record are
validated (throwing for the whole batch); then each detection is remapped,
invalid or throwing items being silently skipped (`List.filterMap`). -/
noncomputable def transformToCanvas (predictions : List RawDetection)
    (letterboxInfo : LetterboxInfoJS) (canvas : CanvasSize) :
    Except MLError (List CanvasDetection) :=
  if predictions.isEmpty then .ok []
  else if codeCanvasBad canvas then .error .INVALID_CANVAS_SIZE
  else if codeLetterboxBad letterboxInfo then .error .INVALID_LETTERBOX_INFO
  else
    match letterboxInfo.scale, letterboxInfo.top, letterboxInfo.left,
        letterboxInfo.croppedWidth, letterboxInfo.croppedHeight with
    | JSNum.num s, JSNum.num t, JSNum.num l, some cw, some ch =>
      .ok (predictions.filterMap (transformDetectionItem s t l cw ch canvas))
    | _, _, _, _, _ =>
      -- unreachable: the guard above forces exactly these shapes
      .error .INVALID_LETTERBOX_INFO

/-- Claim-level predicate: a croppedWidth/croppedHeight field that is
"missing or non-positive" (an absent field or NaN counts as missing — NaN is
the JS falsy non-value — and a value `<= 0` as non-positive). -/
def croppedMissingOrNonpos : Option JSNum → Bool
  | none => true
  | some .nan => true
  | some v => v.leZero

/-- Claim-level predicate for the global inputs of `transformToCanvas` being
invalid, in the words of the claim: canvas width/height `<= 0`, missing or
non-positive croppedWidth/croppedHeight, non-finite or non-positive scale,
non-finite top/left. -/
def claimGlobalBad (lb : LetterboxInfoJS) (canvas : CanvasSize) : Bool :=
  canvas.width.leZero || canvas.height.leZero ||
  croppedMissingOrNonpos lb.croppedWidth || croppedMissingOrNonpos lb.croppedHeight ||
  !lb.scale.isFinite || lb.scale.leZero || !lb.top.isFinite || !lb.left.isFinite

/-- Claim-level predicate for a single detection whose bounding box is
missing, not of length 4, non-finite, or has negative width/height. -/
def claimItemBadBox (p : RawDetection) : Bool :=
  match p.boundingBox with
  | none => true
  | some bb =>
    decide (bb.length ≠ 4) || bb.any (fun v => !v.isFinite) ||
      (match bb with
       | [JSNum.num _, JSNum.num _, JSNum.num w, JSNum.num h] =>
         decide (w < 0) || decide (h < 0)
       | _ => false)

/-! ## yolo-helper.ts: detection decoder `findValidDetections` -/

/-- Decoded detection record (all fields validated finite by the decoder). -/
structure Detection where
  boundingBox : ℚ × ℚ × ℚ × ℚ
  angle : ℚ
  score : ℚ
deriving DecidableEq

/-- Angle extraction of the `findValidDetections` loop (yolo-helper.ts lines
437-441): default 0 when the angle array is absent, too short for this slot,
or non-finite at this index. -/
def decodeAngle (data : List (List JSNum)) (i : ℕ) : ℚ :=
  match data.get? 5 with
  | some arr =>
    if i < arr.length then
      match arr.getD i JSNum.nan with
      | JSNum.num a => a
      | _ => 0
    else 0
  | none => 0

/-- Model of the per-slot body of the `findValidDetections` loop
(yolo-helper.ts lines 411-449): skip when the score is non-finite or not
strictly above the threshold, skip on non-finite coordinates or negative
width/height, take the angle through `decodeAngle`. -/
def decodeSlot (data : List (List JSNum)) (scoreThreshold : ℚ) (i : ℕ) : Option Detection :=
  match (data.getD 4 []).getD i .nan with
  | JSNum.num score =>
    if score ≤ scoreThreshold then none
    else
      match (data.getD 0 []).getD i .nan, (data.getD 1 []).getD i .nan,
          (data.getD 2 []).getD i .nan, (data.getD 3 []).getD i .nan with
      | JSNum.num x, JSNum.num y, JSNum.num width, JSNum.num height =>
        if width < 0 ∨ height < 0 then none
        else some ⟨(x, y, width, height), decodeAngle data i, score⟩
      | _, _, _, _ => none
  | _ => none

/-- Minimum length across the first five data arrays (yolo-helper.ts lines
394-400). -/
def minRequiredLength (data : List (List JSNum)) : ℕ :=
  Min.min (Min.min (Min.min (Min.min (data.getD 0 []).length (data.getD 1 []).length)
    (data.getD 2 []).length) (data.getD 3 []).length) (data.getD 4 []).length

/-- The valid detections of `findValidDetections` in encounter (slot) order,
before the final sort: input validation (fewer than 5 arrays, non-finite or
negative count, threshold outside `[0,1]`, an empty required array) returns
`[]`; otherwise the loop runs for the slots `i` with `i <
min(numDetections, minRequiredLength)` (the declared count may be
fractional, hence the rational comparison). -/
def rawValidDetections (data : List (List JSNum)) (numDetections scoreThreshold : JSNum) :
    List Detection :=
  match numDetections, scoreThreshold with
  | JSNum.num nd, JSNum.num thr =>
    if data.length < 5 ∨ nd < 0 ∨ thr < 0 ∨ thr > 1 then []
    else
      let minLen := minRequiredLength data
      if minLen = 0 then []
      else
        ((List.range minLen).filter fun (i : ℕ) =>
            decide ((i : ℚ) < Min.min nd (minLen : ℚ))).filterMap
          (decodeSlot data thr)
  | _, _ => []

/-- Stable descending insertion by score: the new element goes before the
first element whose score is not larger, so an earlier-encountered element
keeps its place ahead of equal-score later ones. -/
def insertByScoreDesc (d : Detection) : List Detection → List Detection
  | [] => [d]
  | x :: xs => if d.score < x.score then x :: insertByScoreDesc d xs else d :: x :: xs

/-- Stable sort by descending score, the semantics ECMAScript guarantees for
`Array.prototype.sort` with the comparator `(a, b) => b.score - a.score`. -/
def sortByScoreDesc : List Detection → List Detection
  | [] => []
  | d :: rest => insertByScoreDesc d (sortByScoreDesc rest)

/-- Model of `findValidDetections` (yolo-helper.ts lines 375-453): the valid
detections in slot order, sorted by descending score (the early-return guard
cases produce `[]`, on which the sort is the identity). -/
def findValidDetections (data : List (List JSNum)) (numDetections scoreThreshold : JSNum) :
    List Detection :=
  sortByScoreDesc (rawValidDetections data numDetections scoreThreshold)

/-! ## depth-estimator.ts and 3d-helper.ts: registry and depth heuristics -/

/-- Entry of the registered-object-size table: real-world width and height in
meters and the (possibly overridden) aspect ratio. -/
structure ObjectSize where
  width : ℚ
  height : ℚ
  aspectRatio : ℚ
deriving DecidableEq

/-- The process-wide mutable `REGISTERED_OBJECT_SIZES` table, modelled as an
explicit association list threaded through the functions that read or write
it (newest entry first; `List.lookup` finds the newest, which matches the
overwrite semantics of JS object assignment). -/
def Registry := List (String × ObjectSize)

/-- Model of `String.prototype.toLowerCase` for the ASCII class names the
library deals in (characterwise lower-casing of the string's characters). -/
def jsToLowerCase (s : String) : String := String.mk (s.data.map Char.toLower)

/-- Model of `registerObjectSize` (depth-estimator.ts lines 400-419): reject
an empty or whitespace-only class name (the `!className ||
className.trim().length === 0` test) and non-positive real sizes; otherwise
store under the lower-cased name, defaulting the aspect ratio to
width/height. -/
def registerObjectSize (reg : Registry) (className : String)
    (width height : ℚ) (aspectRatio : Option ℚ) : Except MLError Registry :=
  if className.toList.all Char.isWhitespace then .error .INVALID_CLASS_NAME
  else if width ≤ 0 ∨ height ≤ 0 then .error .INVALID_REAL_SIZE
  else .ok ((jsToLowerCase className, ⟨width, height, aspectRatio.getD (width / height)⟩) :: reg)

/-- Registry read as performed by `estimateDepthFromSize` (depth-estimator.ts
line 65): `REGISTERED_OBJECT_SIZES[className]` with the query string used
as-is, without lower-casing. -/
def lookupObjectSizeRaw (reg : Registry) (className : String) : Option ObjectSize :=
  reg.lookup className

/-- Registry read as performed by `estimate3DInfo` in the 3-D estimator
variant (part_007 lines 104-112): the queried class name is lower-cased
before the table access. -/
def lookupObjectSizeNormalized (reg : Registry) (className : String) : Option ObjectSize :=
  reg.lookup (jsToLowerCase className)

/-- Options record of the depth estimator (depth-estimator.ts lines 15-30);
the motion-estimation fields are passed separately to the functions that use
them. -/
structure DepthEstimationOptions where
  focalLength : ℚ
  imageWidth : ℚ
  imageHeight : ℚ
  className : Option String
deriving DecidableEq

/-- Model of `estimateRelativeDepth` (depth-estimator.ts lines 89-123):
area-ratio base depth corrected by the distance of the box center from the
image center, clamped to `[0.5, 50]`. -/
noncomputable def estimateRelativeDepth (boundingBox : ℚ × ℚ × ℚ × ℚ)
    (focalLength imageWidth imageHeight : ℚ) : ℝ :=
  let x := boundingBox.1
  let y := boundingBox.2.1
  let width := boundingBox.2.2.1
  let height := boundingBox.2.2.2
  let areaRatio := (width * height) / (imageWidth * imageHeight)
  let baseDepth : ℝ := Real.sqrt ((1 / areaRatio : ℚ) : ℝ) * ((focalLength : ℝ) / 100)
  let normalizedX := (x + width / 2) / imageWidth
  let normalizedY := (y + height / 2) / imageHeight
  let distanceFromCenter : ℝ :=
    Real.sqrt (((normalizedX - 1/2 : ℚ) : ℝ) ^ 2 + ((normalizedY - 1/2 : ℚ) : ℝ) ^ 2)
  let positionFactor : ℝ := 1 + distanceFromCenter * (1/2)
  Max.max (1/2) (Min.min 50 (baseDepth * positionFactor))

/-- Model of `estimateDepthFromSize` (depth-estimator.ts lines 40-79): after
validating the box size and focal length, the registered-class branch (lines
64-71) takes `min(depthFromWidth, depthFromHeight)` clamped to
`[0.1, 100]`; an unregistered (or empty) class name falls back to the
relative estimate.  The global registry is an explicit argument. -/
noncomputable def estimateDepthFromSize (reg : Registry) (boundingBox : ℚ × ℚ × ℚ × ℚ)
    (options : DepthEstimationOptions) : Except MLError ℝ :=
  let width := boundingBox.2.2.1
  let height := boundingBox.2.2.2
  let className := options.className.getD "default"
  if width ≤ 0 ∨ height ≤ 0 then .error .INVALID_BOUNDING_BOX_SIZE
  else if options.focalLength ≤ 0 then .error .INVALID_FOCAL_LENGTH
  else
    match (if className = "" then none else lookupObjectSizeRaw reg className) with
    | some realSize =>
      let depthFromWidth := realSize.width * options.focalLength / width
      let depthFromHeight := realSize.height * options.focalLength / height
      let estimatedDepth := Min.min depthFromWidth depthFromHeight
      .ok ((Max.max (1/10) (Min.min 100 estimatedDepth) : ℚ) : ℝ)
    | none =>
      .ok (estimateRelativeDepth boundingBox options.focalLength
        options.imageWidth options.imageHeight)

/-- The constant `CONSISTENCY_EPS = 0.25` of 3d-helper.ts. -/
def CONSISTENCY_EPS : ℚ := 1/4

/-- The constant `DIVISION_SAFETY_EPSILON = 1e-6` of 3d-helper.ts. -/
def DIVISION_SAFETY_EPSILON : ℚ := 1/1000000

/-- Depth component of `estimate3DInfo` (3d-helper.ts lines 90-145): focal
length is `0.8 * imageWidth` (`getFocalScale`), the two single-dimension
estimates are fused by averaging when their relative difference is within
`CONSISTENCY_EPS`, otherwise the estimate from the larger box dimension is
taken; no clamp is applied.  The `Number.isFinite` checks on the box
dimensions are vacuous for rational inputs; the orientation component of the
return value is computed independently by `estimateOrientation` and is not
needed by any claim, so it is not modelled. -/
def estimate3DInfoDepth (boundingBox : ℚ × ℚ × ℚ × ℚ) (imageWidth : ℚ)
    (objectSize : ℚ × ℚ) : Except MLError ℚ :=
  let width := boundingBox.2.2.1
  let height := boundingBox.2.2.2
  let focalLength := 8/10 * imageWidth
  if focalLength ≤ 0 then .error .FOCAL_LENGTH_INVALID
  else
    let depthFromWidth := objectSize.1 * focalLength / width
    let depthFromHeight := objectSize.2 * focalLength / height
    let relDiff := |depthFromWidth - depthFromHeight| /
      Max.max (Max.max depthFromWidth depthFromHeight) DIVISION_SAFETY_EPSILON
    .ok (if relDiff ≤ CONSISTENCY_EPS then (depthFromWidth + depthFromHeight) / 2
         else if height > width then depthFromHeight else depthFromWidth)

/-- The known-size depth rule in the words of the claim: width- and
height-derived estimates, averaged when they agree within the 25% relative
tolerance (the relative difference test of the code, with its division
safety epsilon), otherwise the estimate from the larger box dimension. -/
def knownSizeDepthClaim (realWidth realHeight focalLength boxWidth boxHeight : ℚ) : ℚ :=
  let depthFromWidth := realWidth * focalLength / boxWidth
  let depthFromHeight := realHeight * focalLength / boxHeight
  let relDiff := |depthFromWidth - depthFromHeight| /
    Max.max (Max.max depthFromWidth depthFromHeight) DIVISION_SAFETY_EPSILON
  if relDiff ≤ CONSISTENCY_EPS then (depthFromWidth + depthFromHeight) / 2
  else if boxHeight > boxWidth then depthFromHeight else depthFromWidth

/-- Model of `adjustDepthByPosition` (depth-estimator.ts lines 220-251):
validate the image size and base depth, then scale the base depth by
`0.6 + (1 - normalizedBottomY * 0.4) * 0.8` where `normalizedBottomY` is the
bottom edge of the box divided by the image height.  No clamp is applied to
the factor. -/
def adjustDepthByPosition (boundingBox : ℚ × ℚ × ℚ × ℚ) (baseDepth : ℚ)
    (imageWidth imageHeight : ℚ) : Except MLError ℚ :=
  if imageWidth ≤ 0 ∨ imageHeight ≤ 0 then .error .INVALID_IMAGE_SIZE
  else if baseDepth ≤ 0 then .error .INVALID_BASE_DEPTH
  else
    let bottomY := boundingBox.2.1 + boundingBox.2.2.2
    let normalizedBottomY := bottomY / imageHeight
    let positionFactor := 1 - normalizedBottomY * (4/10)
    let adjustmentFactor := 6/10 + positionFactor * (8/10)
    .ok (baseDepth * adjustmentFactor)

/-- Model of `getCenterPoint` (depth-estimator.ts lines 200-209). -/
def getCenterPoint (boundingBox : ℚ × ℚ × ℚ × ℚ) : ℚ × ℚ :=
  (boundingBox.1 + boundingBox.2.2.1 / 2, boundingBox.2.1 + boundingBox.2.2.2 / 2)

/-- Nearest-previous-detection search of `estimateDepthFromMotion`
(depth-estimator.ts lines 150-165): the fold over the previous detections
that tracks the closest candidate by center distance, starting from
`minDistance = Infinity, closestPrevious = null` (the `none` accumulator);
the strict `<` keeps the earlier candidate on ties.  Distances are tracked
as squares: `Math.sqrt` is strictly monotone on the non-negative reals, so
minimising the squared distance is exactly the source behaviour. -/
def closestPreviousSq (currentCenter : ℚ × ℚ) (previous : List (ℚ × ℚ × ℚ × ℚ)) :
    Option (ℚ × (ℚ × ℚ × ℚ × ℚ)) :=
  previous.foldl (fun acc prev =>
    let prevCenter := getCenterPoint prev
    let distSq := (currentCenter.1 - prevCenter.1) ^ 2 + (currentCenter.2 - prevCenter.2) ^ 2
    match acc with
    | none => some (distSq, prev)
    | some best => if distSq < best.1 then some (distSq, prev) else acc) none

/-- Squared magnitude of the camera-motion-corrected disparity between the
current and matched previous centers. -/
def disparitySq (currentCenter prevCenter cameraMotion : ℚ × ℚ) : ℚ :=
  (currentCenter.1 - prevCenter.1 - cameraMotion.1) ^ 2 +
    (currentCenter.2 - prevCenter.2 - cameraMotion.2) ^ 2

/-- Model of `estimateDepthFromMotion` (depth-estimator.ts lines 134-195):
no estimate without previous detections or a positive time delta; the
nearest previous detection must be within 100 px (`distSq > 100^2` is the
squared form of `minDistance > 100`) and the camera-motion-corrected
disparity at least 1 px (`dispSq < 1` is the squared form of
`disparityMagnitude < 1`); the velocity `sqrt(dispSq)/deltaTime` then feeds
the empirical inverse relation, clamped to `[0.5, 100]`. -/
noncomputable def estimateDepthFromMotion (current : ℚ × ℚ × ℚ × ℚ)
    (previous : List (ℚ × ℚ × ℚ × ℚ)) (deltaTime focalLength : ℚ)
    (cameraMotion : ℚ × ℚ) : Option ℝ :=
  if previous = [] ∨ deltaTime ≤ 0 then none
  else
    match closestPreviousSq (getCenterPoint current) previous with
    | none => none
    | some best =>
      if best.1 > 100 ^ 2 then none
      else if disparitySq (getCenterPoint current) (getCenterPoint best.2) cameraMotion < 1
      then none
      else
        some (Max.max (1/2) (Min.min 100
          ((focalLength : ℝ) * (1/10) /
            Max.max
              (Real.sqrt
                  ((disparitySq (getCenterPoint current) (getCenterPoint best.2) cameraMotion : ℚ)
                    : ℝ) /
                (deltaTime : ℝ) * (1/100))
              (1/10))))

/-! ## detection-controller.ts: the detection-loop state machine -/

/-- Controller states (detection-controller.ts lines 30-34 and the part_014
variant lines 32-37, which adds `DETECTION_PAUSED`). -/
inductive DetectionState where
  | idle
  | processing
  | paused
  | detectionPaused
deriving DecidableEq

/-- The two kinds of pause request: `pause({pauseCamera: true})` (the only
kind in detection-controller.ts, also used by `dispose` and by the fatal
error handler) and `pause({pauseCamera: false})` of the part_014 variant. -/
inductive PauseKind where
  | camera
  | detectionOnly
deriving DecidableEq

/-- A state transition that can be performed while a `PROCESSING` attempt is
in flight: a pause request (explicit `pause()`, the auto-pause of
`handleDetectionResults` on a detection, or `dispose()`), or the
`resetToIdleState` timer callback scheduled by `resume()`. -/
inductive MidAction where
  | pauseReq (kind : PauseKind)
  | resumeReset
deriving DecidableEq

/-- Effect of one mid-attempt transition on the detection state (the bodies
of `pause` and of `resume`'s `resetToIdleState`; each assigns the state
unconditionally). -/
def applyMidAction : DetectionState → MidAction → DetectionState
  | _, .pauseReq .camera => .paused
  | _, .pauseReq .detectionOnly => .detectionPaused
  | _, .resumeReset => .idle

/-- Observable behaviour of one `detectObjects` attempt: the mid-attempt state
transitions that occurred (in order), whether the attempt threw, and whether
the thrown error was a fatal `MLInternalError` (in which case
`handleFatalError` performs one more pause before re-throwing). -/
structure AttemptBehavior where
  midActions : List MidAction
  threw : Bool
  fatal : Bool
deriving DecidableEq

/-- The `finally` block of the detection loop body: reset the state to `IDLE`
exactly when it is still `PROCESSING`. -/
def detectionAttemptFinally (s : DetectionState) : DetectionState :=
  if s = DetectionState.processing then DetectionState.idle else s

/-- State after the try/catch/finally of the detection loop body
(detection-controller.ts lines 163-171 and part_014 lines 178-186), starting
from the `PROCESSING` assignment: the mid-attempt transitions are applied, a
fatal throw triggers the `handleFatalError` pause, and then the `finally`
block runs. -/
def runDetectionAttempt (beh : AttemptBehavior) : DetectionState :=
  detectionAttemptFinally
    (if beh.threw && beh.fatal then DetectionState.paused
     else beh.midActions.foldl applyMidAction DetectionState.processing)

/-- Model of `shouldExecuteDetection` (detection-controller.ts lines
257-262): idle state and at least the configured interval elapsed since the
last attempt. -/
def shouldExecuteDetection (s : DetectionState) (currentTime lastTimestamp intervalMs : ℤ) :
    Prop :=
  s = DetectionState.idle ∧ intervalMs ≤ currentTime - lastTimestamp

instance (s : DetectionState) (currentTime lastTimestamp intervalMs : ℤ) :
    Decidable (shouldExecuteDetection s currentTime lastTimestamp intervalMs) :=
  inferInstanceAs (Decidable (_ ∧ _))

/-- One iteration of `detectionLoop` (detection-controller.ts lines 155-176):
when the gate passes, the attempt runs (returning the post-`finally` state)
and the last-attempt timestamp is updated; otherwise nothing changes. -/
def detectionLoopStep (s : DetectionState) (lastTimestamp currentTime intervalMs : ℤ)
    (beh : AttemptBehavior) : DetectionState × ℤ :=
  if shouldExecuteDetection s currentTime lastTimestamp intervalMs
  then (runDetectionAttempt beh, currentTime)
  else (s, lastTimestamp)

/-- An attempt during which no pause-type transition happened: no pause
request among the mid-attempt actions and no fatal throw. -/
def pauseFree (beh : AttemptBehavior) : Prop :=
  (∀ a ∈ beh.midActions, ∀ k, a ≠ MidAction.pauseReq k) ∧ ¬(beh.threw = true ∧ beh.fatal = true)

/-! ## Theorems -/

/-- The cleanup step of the loop body never leaves the state in
`PROCESSING`. -/
theorem detectionAttemptFinally_ne_processing (s : DetectionState) :
    detectionAttemptFinally s ≠ DetectionState.processing := by
  unfold detectionAttemptFinally
  split
  · simp
  · assumption

/-- Mid-attempt transitions that are not pause requests leave the state
either unchanged or idle. -/
theorem foldl_applyMidAction_no_pause (l : List MidAction) (s : DetectionState)
    (hnp : ∀ a ∈ l, ∀ k, a ≠ MidAction.pauseReq k) :
    l.foldl applyMidAction s = s ∨ l.foldl applyMidAction s = DetectionState.idle := by
  induction l generalizing s with
  | nil => exact Or.inl rfl
  | cons a l ih =>
    have ha : a = MidAction.resumeReset := by
      cases a with
      | pauseReq k => exact absurd rfl (hnp _ (List.mem_cons_self _ _) k)
      | resumeReset => rfl
    subst ha
    have hrest := ih DetectionState.idle (fun b hb k => hnp b (List.mem_cons_of_mem _ hb) k)
    rcases hrest with hr | hr
    · exact Or.inr (by simpa [applyMidAction] using hr)
    · exact Or.inr (by simpa [applyMidAction] using hr)

/-- C5: for every source rectangle, mapping it forward by the letterbox
transform (`x*s+left`, `y*s+top`, `w*s`, `h*s` with scale `s > 0` and padding
offsets `top`, `left`) and then applying `letterboxToOriginal` recovers the
original rectangle exactly, since the inverse computes `(x-left)/s`,
`(y-top)/s`, `w/s`, `h/s`. -/
theorem c5_letterbox_roundtrip (x y w h s top left : ℚ) (hs : 0 < s) (hw : 0 ≤ w) (hh : 0 ≤ h) :
    letterboxToOriginal (x * s + left) (y * s + top) (w * s) (h * s) s top left =
      Except.ok ⟨x, y, w, h⟩ := by
  have hsne : s ≠ 0 := ne_of_gt hs
  unfold letterboxToOriginal
  rw [if_neg (not_le.mpr hs), if_neg]
  · have e1 : (x * s + left - left) / s = x := by field_simp
    have e2 : (y * s + top - top) / s = y := by field_simp
    have e3 : w * s / s = w := by field_simp
    have e4 : h * s / s = h := by field_simp
    rw [e1, e2, e3, e4]
  · rintro (hlt | hlt)
    · exact absurd hlt (not_lt.mpr (mul_nonneg hw hs.le))
    · exact absurd hlt (not_lt.mpr (mul_nonneg hh hs.le))

/-- Witness for C5 at a concrete rectangle and transform. -/
theorem c5_witness :
    letterboxToOriginal (1 * 2 + 6) (3 * 2 + 5) (4 * 2) (7 * 2) 2 5 6 =
      Except.ok ⟨1, 3, 4, 7⟩ :=
  c5_letterbox_roundtrip 1 3 4 7 2 5 6 (by norm_num) (by norm_num) (by norm_num)

/-- C9: `letterboxTransform` throws `INVALID_IMAGE_DIMENSIONS` for a
well-formed 3-dimensional input tensor whose height or width is zero, even
when the target shape is valid — the rejection comes from the
`calculateOptimalScale` precondition on the source dimensions. -/
theorem c9_letterbox_rejects_degenerate_source (h w c : ℕ) (targetH targetW : ℚ)
    (htW : 0 < targetW) (htH : 0 < targetH) (hdeg : w = 0 ∨ h = 0) :
    letterboxTransform [h, w, c] (targetH, targetW) =
      Except.error MLError.INVALID_IMAGE_DIMENSIONS := by
  rcases hdeg with h0 | h0 <;> subst h0 <;>
    simp [letterboxTransform, calculateOptimalScale, not_le.mpr htW, not_le.mpr htH]

/-- Witness for C9: a 0-height, 5-wide, 3-channel tensor against the default
640 by 640 target. -/
theorem c9_witness :
    letterboxTransform [0, 5, 3] (640, 640) =
      Except.error MLError.INVALID_IMAGE_DIMENSIONS :=
  c9_letterbox_rejects_degenerate_source 0 5 3 640 640 (by norm_num) (by norm_num) (Or.inr rfl)

/-- C4: in an executing loop iteration (idle state, interval elapsed), after
the attempt — whether it succeeds or throws — the state is never left in
`PROCESSING`, and it is `IDLE` unless a pause-type transition (explicit
pause, auto-pause on detection, dispose, or the fatal-error pause)
occurred during the attempt. -/
theorem c4_processing_always_resolves (s : DetectionState)
    (lastTimestamp currentTime intervalMs : ℤ) (beh : AttemptBehavior)
    (hidle : s = DetectionState.idle) (hint : intervalMs ≤ currentTime - lastTimestamp) :
    (detectionLoopStep s lastTimestamp currentTime intervalMs beh).1 ≠
      DetectionState.processing ∧
    (pauseFree beh →
      (detectionLoopStep s lastTimestamp currentTime intervalMs beh).1 = DetectionState.idle) := by
  have hgate : shouldExecuteDetection s currentTime lastTimestamp intervalMs := ⟨hidle, hint⟩
  rw [detectionLoopStep, if_pos hgate]
  constructor
  · show runDetectionAttempt beh ≠ _
    exact detectionAttemptFinally_ne_processing _
  · intro hpf
    show runDetectionAttempt beh = _
    have hfatal : (beh.threw && beh.fatal) = false := by
      cases ht : beh.threw with
      | false => simp
      | true =>
        cases hf : beh.fatal with
        | false => simp
        | true => exact absurd ⟨ht, hf⟩ hpf.2
    have hfold := foldl_applyMidAction_no_pause beh.midActions DetectionState.processing hpf.1
    rcases hfold with hr | hr <;>
      simp [runDetectionAttempt, detectionAttemptFinally, hfatal, hr]

/-- Witness for C4: an attempt that throws a non-fatal error with no
mid-attempt transitions ends in `IDLE`. -/
theorem c4_witness :
    (detectionLoopStep DetectionState.idle 0 500 500 ⟨[], true, false⟩).1 ≠
      DetectionState.processing ∧
    (detectionLoopStep DetectionState.idle 0 500 500 ⟨[], true, false⟩).1 =
      DetectionState.idle := by
  have h := c4_processing_always_resolves DetectionState.idle 0 500 500 ⟨[], true, false⟩ rfl
    (by norm_num)
  exact ⟨h.1, h.2 ⟨by simp, by simp⟩⟩

/-- C8 counterexample: for the box `[0, 0, 10, 300]` in a 100 by 100 image
with base depth 1 (all positive, as the claim requires), the code multiplies
by `0.44`, outside the claimed factor interval `[0.6, 1.4]` — the factor is
unclamped, and a box whose bottom edge is below the frame drives it under
`0.6`. -/
theorem c8_counterexample :
    adjustDepthByPosition (0, 0, 10, 300) 1 100 100 = Except.ok (11/25) ∧
    ¬(6/10 ≤ (11/25 : ℚ)) := by
  constructor
  · unfold adjustDepthByPosition
    norm_num
  · norm_num

/-- C8 (amended): for boxes whose bottom edge lies inside the image
(`0 ≤ y + height ≤ imageHeight`), `adjustDepthByPosition` multiplies the base
depth by the factor `1.4 - 0.32 * normalizedBottomY`, which is linear in the
normalized bottom-Y, lies in `[0.6, 1.4]` (indeed in `[1.08, 1.4]`), and is
smaller for boxes whose bottom edge is lower in the frame. -/
theorem c8_adjust_depth_position :
    (∀ x y w h baseDepth imageWidth imageHeight : ℚ,
      0 < imageWidth → 0 < imageHeight → 0 < baseDepth →
      0 ≤ y + h → y + h ≤ imageHeight →
      ∃ r, adjustDepthByPosition (x, y, w, h) baseDepth imageWidth imageHeight = Except.ok r ∧
        r = baseDepth * (7/5 - 8/25 * ((y + h) / imageHeight)) ∧
        6/10 * baseDepth ≤ r ∧ r ≤ 7/5 * baseDepth) ∧
    (∀ x1 y1 w1 h1 x2 y2 w2 h2 baseDepth imageWidth imageHeight r1 r2 : ℚ,
      0 < imageWidth → 0 < imageHeight → 0 < baseDepth →
      y1 + h1 ≤ y2 + h2 →
      adjustDepthByPosition (x1, y1, w1, h1) baseDepth imageWidth imageHeight = Except.ok r1 →
      adjustDepthByPosition (x2, y2, w2, h2) baseDepth imageWidth imageHeight = Except.ok r2 →
      r2 ≤ r1) := by
  have hval : ∀ x y w h baseDepth imageWidth imageHeight : ℚ,
      0 < imageWidth → 0 < imageHeight → 0 < baseDepth →
      adjustDepthByPosition (x, y, w, h) baseDepth imageWidth imageHeight =
        Except.ok (baseDepth * (7/5 - 8/25 * ((y + h) / imageHeight))) := by
    intro x y w h bd iw ihh hiw hih hbd
    unfold adjustDepthByPosition
    rw [if_neg (by push_neg; exact ⟨hiw, hih⟩), if_neg (not_le.mpr hbd)]
    ring_nf
  constructor
  · intro x y w h bd iw ihh hiw hih hbd hb0 hb1
    refine ⟨bd * (7/5 - 8/25 * ((y + h) / ihh)), hval x y w h bd iw ihh hiw hih hbd, rfl, ?_, ?_⟩
    · have hnb1 : (y + h) / ihh ≤ 1 := (div_le_one hih).mpr hb1
      nlinarith
    · have hnb0 : 0 ≤ (y + h) / ihh := div_nonneg hb0 hih.le
      nlinarith
  · intro x1 y1 w1 h1 x2 y2 w2 h2 bd iw ihh r1 r2 hiw hih hbd hle he1 he2
    rw [hval x1 y1 w1 h1 bd iw ihh hiw hih hbd] at he1
    rw [hval x2 y2 w2 h2 bd iw ihh hiw hih hbd] at he2
    have hr1 : r1 = bd * (7/5 - 8/25 * ((y1 + h1) / ihh)) := (Except.ok.injEq _ _).mp he1.symm
    have hr2 : r2 = bd * (7/5 - 8/25 * ((y2 + h2) / ihh)) := (Except.ok.injEq _ _).mp he2.symm
    have hdiv : (y1 + h1) / ihh ≤ (y2 + h2) / ihh := (div_le_div_iff_of_pos_right hih).mpr hle
    rw [hr1, hr2]
    nlinarith

/-- Witness for C8: for a box with bottom edge at half the image height the
adjusted depth is `2 * (7/5 - 8/25 * 1/2) = 62/25`, inside the claimed
bounds. -/
theorem c8_witness :
    adjustDepthByPosition (0, 0, 10, 50) 2 100 100 = Except.ok (62/25) ∧
    6/10 * 2 ≤ (62/25 : ℚ) ∧ (62/25 : ℚ) ≤ 7/5 * 2 := by
  obtain ⟨r, hr, heq, hlb, hub⟩ := c8_adjust_depth_position.1 0 0 10 50 2 100 100
    (by norm_num) (by norm_num) (by norm_num) (by norm_num) (by norm_num)
  have hrval : r = 62/25 := by rw [heq]; norm_num
  rw [hrval] at hr hlb hub
  exact ⟨hr, hlb, hub⟩

/-- C10: whenever `estimateDepthFromMotion` returns a non-null number, that
number is clamped to `[0.5, 100]` meters — the motion path has both a floor
and a ceiling. -/
theorem c10_motion_depth_clamped (current : ℚ × ℚ × ℚ × ℚ)
    (previous : List (ℚ × ℚ × ℚ × ℚ)) (deltaTime focalLength : ℚ)
    (cameraMotion : ℚ × ℚ) (v : ℝ)
    (h : estimateDepthFromMotion current previous deltaTime focalLength cameraMotion = some v) :
    1/2 ≤ v ∧ v ≤ 100 := by
  unfold estimateDepthFromMotion at h
  split at h
  · exact absurd h (by simp)
  · split at h
    · exact absurd h (by simp)
    · split at h
      · exact absurd h (by simp)
      · split at h
        · exact absurd h (by simp)
        · injection h with hv
          subst hv
          exact ⟨le_max_left _ _, max_le (by norm_num) (min_le_left _ _)⟩

/-- Witness for C10: a detection that moved 5 px from the single previous
detection in one second with focal length 100 gets motion depth 100, within
the clamp interval. -/
theorem c10_witness :
    estimateDepthFromMotion (0, 0, 6, 8) [(0, 0, 0, 0)] 1 100 (0, 0) = some 100 ∧
    (1/2 : ℝ) ≤ 100 ∧ (100 : ℝ) ≤ 100 := by
  have hsqrt : Real.sqrt 25 = 5 := by
    rw [show (25 : ℝ) = 5 ^ 2 by norm_num, Real.sqrt_sq (by norm_num : (0:ℝ) ≤ 5)]
  have hfold : closestPreviousSq (getCenterPoint (0, 0, 6, 8)) [(0, 0, 0, 0)] =
      some (25, (0, 0, 0, 0)) := by
    simp [closestPreviousSq, getCenterPoint]
    norm_num
  have h : estimateDepthFromMotion (0, 0, 6, 8) [(0, 0, 0, 0)] 1 100 (0, 0) = some 100 := by
    rw [estimateDepthFromMotion, if_neg (by norm_num), hfold]
    dsimp only
    have hdisp : disparitySq (getCenterPoint (0, 0, 6, 8)) (getCenterPoint (0, 0, 0, 0)) (0, 0) =
        25 := by
      norm_num [getCenterPoint, disparitySq]
    rw [if_neg (by norm_num), hdisp, if_neg (by norm_num)]
    have hc : ((25 : ℚ) : ℝ) = 25 := by norm_num
    rw [hc, hsqrt]
    norm_num [max_def, min_def]
  exact ⟨h, c10_motion_depth_clamped (0, 0, 6, 8) [(0, 0, 0, 0)] 1 100 (0, 0) 100 h⟩

/-- Membership in a stable insertion is membership in the inserted element or
the list. -/
theorem mem_insertByScoreDesc (d a : Detection) (l : List Detection) :
    a ∈ insertByScoreDesc d l ↔ a = d ∨ a ∈ l := by
  induction l with
  | nil => simp [insertByScoreDesc]
  | cons x xs ih =>
    simp only [insertByScoreDesc]
    split
    · simp only [List.mem_cons, ih]
      tauto
    · simp [List.mem_cons]

/-- Stable insertion preserves the descending-by-score invariant. -/
theorem pairwise_insertByScoreDesc (d : Detection) (l : List Detection)
    (h : l.Pairwise (fun a b => b.score ≤ a.score)) :
    (insertByScoreDesc d l).Pairwise (fun a b => b.score ≤ a.score) := by
  induction l with
  | nil => simp [insertByScoreDesc]
  | cons x xs ih =>
    rw [List.pairwise_cons] at h
    simp only [insertByScoreDesc]
    split
    · rename_i hlt
      rw [List.pairwise_cons]
      refine ⟨?_, ih h.2⟩
      intro y hy
      rcases (mem_insertByScoreDesc d y xs).mp hy with rfl | hyx
      · exact hlt.le
      · exact h.1 y hyx
    · rename_i hnlt
      rw [List.pairwise_cons]
      refine ⟨?_, List.pairwise_cons.mpr h⟩
      intro y hy
      rcases List.mem_cons.mp hy with rfl | hyx
      · exact not_lt.mp hnlt
      · exact (h.1 y hyx).trans (not_lt.mp hnlt)

/-- The stable sort produces a descending-by-score list. -/
theorem pairwise_sortByScoreDesc (l : List Detection) :
    (sortByScoreDesc l).Pairwise (fun a b => b.score ≤ a.score) := by
  induction l with
  | nil => simp [sortByScoreDesc]
  | cons d rest ih =>
    simpa [sortByScoreDesc] using pairwise_insertByScoreDesc d (sortByScoreDesc rest) ih

/-- The stable sort neither adds nor removes detections. -/
theorem mem_sortByScoreDesc (a : Detection) (l : List Detection) :
    a ∈ sortByScoreDesc l ↔ a ∈ l := by
  induction l with
  | nil => simp [sortByScoreDesc]
  | cons d rest ih =>
    simp [sortByScoreDesc, mem_insertByScoreDesc, ih]

/-- Filtering an equal-score class through a stable insertion: the inserted
element lands behind every retained element when its score matches, because
it is only ever placed after strictly larger scores. -/
theorem filter_insertByScoreDesc (d : Detection) (l : List Detection) (q : ℚ) :
    (insertByScoreDesc d l).filter (fun e => decide (e.score = q)) =
      if d.score = q then d :: l.filter (fun e => decide (e.score = q))
      else l.filter (fun e => decide (e.score = q)) := by
  induction l with
  | nil =>
    by_cases hdq : d.score = q <;> simp [insertByScoreDesc, List.filter_cons, hdq]
  | cons x xs ih =>
    simp only [insertByScoreDesc]
    split
    · rename_i hlt
      by_cases hdq : d.score = q
      · have hxq : ¬(x.score = q) := fun hx => absurd (hdq ▸ hx ▸ hlt) (lt_irrefl _)
        simp [List.filter_cons, hxq, ih, hdq]
      · simp [List.filter_cons, ih, hdq]
    · by_cases hdq : d.score = q <;> simp [List.filter_cons, hdq]

/-- Stability of the sort: within each equal-score class the sorted order is
the encounter order. -/
theorem filter_sortByScoreDesc (l : List Detection) (q : ℚ) :
    (sortByScoreDesc l).filter (fun e => decide (e.score = q)) =
      l.filter (fun e => decide (e.score = q)) := by
  induction l with
  | nil => rfl
  | cons d rest ih =>
    simp only [sortByScoreDesc]
    rw [filter_insertByScoreDesc]
    by_cases hdq : d.score = q <;> simp [List.filter_cons, hdq, ih]

/-- A decoded slot always carries a score strictly above the threshold. -/
theorem decodeSlot_score_gt (data : List (List JSNum)) (thr : ℚ) (i : ℕ) (d : Detection)
    (h : decodeSlot data thr i = some d) : thr < d.score := by
  unfold decodeSlot at h
  split at h
  · split at h
    · exact absurd h (by simp)
    · rename_i hgt
      split at h
      · split at h
        · exact absurd h (by simp)
        · injection h with hd
          subst hd
          exact not_le.mp hgt
      · exact absurd h (by simp)
  · exact absurd h (by simp)

/-- Detections in the pre-sort list come from decoded slots. -/
theorem mem_rawValidDetections (data : List (List JSNum)) (nd thr : ℚ) (d : Detection)
    (hd : d ∈ rawValidDetections data (JSNum.num nd) (JSNum.num thr)) :
    ∃ j, decodeSlot data thr j = some d := by
  unfold rawValidDetections at hd
  dsimp only at hd
  split at hd
  · exact absurd hd (by simp)
  · split at hd
    · exact absurd hd (by simp)
    · rcases List.mem_filterMap.mp hd with ⟨j, _, hj⟩
      exact ⟨j, hj⟩

/-- C6: for a well-formed decoder input (at least 5 arrays, nonnegative
count, threshold in `[0,1]`) and a slot inside the effective count, a slot
whose score equals the threshold exactly is skipped (no detection in the
output ever carries a score `<=` threshold), while a slot with a finite score
strictly above the threshold and valid finite geometry produces a detection
that appears in the output of `findValidDetections`. -/
theorem c6_threshold_exactness (data : List (List JSNum)) (nd thr : ℚ) (i : ℕ)
    (hlen : 5 ≤ data.length) (hnd : 0 ≤ nd) (hthr0 : 0 ≤ thr) (hthr1 : thr ≤ 1)
    (hslot : (i : ℚ) < Min.min nd (minRequiredLength data : ℚ)) :
    ((data.getD 4 []).getD i JSNum.nan = JSNum.num thr → decodeSlot data thr i = none) ∧
    (∀ d ∈ findValidDetections data (JSNum.num nd) (JSNum.num thr), thr < d.score) ∧
    (∀ x y w h sc : ℚ,
      (data.getD 0 []).getD i JSNum.nan = JSNum.num x →
      (data.getD 1 []).getD i JSNum.nan = JSNum.num y →
      (data.getD 2 []).getD i JSNum.nan = JSNum.num w →
      (data.getD 3 []).getD i JSNum.nan = JSNum.num h →
      (data.getD 4 []).getD i JSNum.nan = JSNum.num sc →
      thr < sc → 0 ≤ w → 0 ≤ h →
      ∃ d, decodeSlot data thr i = some d ∧
        d ∈ findValidDetections data (JSNum.num nd) (JSNum.num thr) ∧
        d.score = sc ∧ d.boundingBox = (x, y, w, h)) := by
  have hminpos : 0 < minRequiredLength data := by
    by_contra h0
    push_neg at h0
    have hz : minRequiredLength data = 0 := Nat.le_zero.mp h0
    have h2 := lt_of_lt_of_le hslot (min_le_right _ _)
    rw [hz] at h2
    exact absurd h2 (by push_cast; exact not_lt.mpr (Nat.cast_nonneg i))
  have hilt : i < minRequiredLength data := by
    have h2 := lt_of_lt_of_le hslot (min_le_right _ _)
    exact_mod_cast h2
  refine ⟨?_, ?_, ?_⟩
  · intro h4
    unfold decodeSlot
    rw [h4]
    simp
  · intro d hd
    rw [findValidDetections, mem_sortByScoreDesc] at hd
    rcases mem_rawValidDetections data nd thr d hd with ⟨j, hj⟩
    exact decodeSlot_score_gt data thr j d hj
  · intro x y w h sc h0 h1 h2 h3 h4 hsc hw hh
    have hdec : decodeSlot data thr i =
        some ⟨(x, y, w, h), decodeAngle data i, sc⟩ := by
      unfold decodeSlot
      rw [h4]
      dsimp only
      rw [if_neg (not_le.mpr hsc), h0, h1, h2, h3]
      dsimp only
      rw [if_neg (by push_neg; exact ⟨hw, hh⟩)]
    have hmemslot : i ∈ (List.range (minRequiredLength data)).filter
        (fun (j : ℕ) => decide ((j : ℚ) < Min.min nd (minRequiredLength data : ℚ))) := by
      rw [List.mem_filter]
      exact ⟨List.mem_range.mpr hilt, decide_eq_true hslot⟩
    have hraw : (⟨(x, y, w, h), decodeAngle data i, sc⟩ : Detection) ∈
        rawValidDetections data (JSNum.num nd) (JSNum.num thr) := by
      unfold rawValidDetections
      dsimp only
      rw [if_neg (by push_neg; exact ⟨hlen, hnd, hthr0, hthr1⟩),
        if_neg (Nat.pos_iff_ne_zero.mp hminpos)]
      exact List.mem_filterMap.mpr ⟨i, hmemslot, hdec⟩
    refine ⟨⟨(x, y, w, h), decodeAngle data i, sc⟩, hdec, ?_, rfl, rfl⟩
    rw [findValidDetections, mem_sortByScoreDesc]
    exact hraw

/-- Witness for C6 on a concrete two-slot input with threshold one half: the
slot scoring exactly one half is excluded, the slot scoring three quarters is
included. -/
theorem c6_witness :
    decodeSlot [[JSNum.num 10, JSNum.num 1], [JSNum.num 20, JSNum.num 2],
      [JSNum.num 5, JSNum.num 3], [JSNum.num 6, JSNum.num 4],
      [JSNum.num (1/2), JSNum.num (3/4)]] (1/2) 0 = none ∧
    ∃ d, decodeSlot [[JSNum.num 10, JSNum.num 1], [JSNum.num 20, JSNum.num 2],
        [JSNum.num 5, JSNum.num 3], [JSNum.num 6, JSNum.num 4],
        [JSNum.num (1/2), JSNum.num (3/4)]] (1/2) 1 = some d ∧
      d ∈ findValidDetections [[JSNum.num 10, JSNum.num 1], [JSNum.num 20, JSNum.num 2],
        [JSNum.num 5, JSNum.num 3], [JSNum.num 6, JSNum.num 4],
        [JSNum.num (1/2), JSNum.num (3/4)]] (JSNum.num 2) (JSNum.num (1/2)) ∧
      d.score = 3/4 ∧ d.boundingBox = (1, 2, 3, 4) := by
  have h0 := c6_threshold_exactness [[JSNum.num 10, JSNum.num 1], [JSNum.num 20, JSNum.num 2],
    [JSNum.num 5, JSNum.num 3], [JSNum.num 6, JSNum.num 4],
    [JSNum.num (1/2), JSNum.num (3/4)]] 2 (1/2) 0
    (by norm_num) (by norm_num) (by norm_num) (by norm_num) (by decide)
  have h1 := c6_threshold_exactness [[JSNum.num 10, JSNum.num 1], [JSNum.num 20, JSNum.num 2],
    [JSNum.num 5, JSNum.num 3], [JSNum.num 6, JSNum.num 4],
    [JSNum.num (1/2), JSNum.num (3/4)]] 2 (1/2) 1
    (by norm_num) (by norm_num) (by norm_num) (by norm_num) (by decide)
  exact ⟨h0.1 rfl, h1.2.2 1 2 3 4 (3/4) rfl rfl rfl rfl rfl (by norm_num) (by norm_num)
    (by norm_num)⟩

/-- Claim-level and code-level crop-dimension validity agree. -/
theorem croppedMissingOrNonpos_eq (o : Option JSNum) :
    croppedMissingOrNonpos o = (!(jsOptTruthy o) || jsOptLeZero o) := by
  rcases o with _ | v
  · rfl
  · rcases v with q | _ | _ | _
    · by_cases hq : q = 0 <;>
        simp [croppedMissingOrNonpos, jsOptTruthy, jsOptLeZero, JSNum.truthy, JSNum.leZero, hq]
    · rfl
    · rfl
    · rfl

/-- The claim-level global-invalidity predicate holds exactly when one of the
two validation guards of `transformToCanvas` fires. -/
theorem claimGlobalBad_iff (lb : LetterboxInfoJS) (canvas : CanvasSize) :
    claimGlobalBad lb canvas = true ↔
      (codeCanvasBad canvas = true ∨ codeLetterboxBad lb = true) := by
  unfold claimGlobalBad codeCanvasBad codeLetterboxBad
  rw [croppedMissingOrNonpos_eq, croppedMissingOrNonpos_eq]
  simp only [Bool.or_eq_true]
  tauto

/-- When the letterbox guard passes, the scale, paddings and crop dimensions
have the shapes the main branch of `transformToCanvas` destructures. -/
theorem codeLetterboxBad_false_shape (lb : LetterboxInfoJS)
    (h : codeLetterboxBad lb = false) :
    ∃ s t l : ℚ, ∃ cw ch : JSNum,
      lb.scale = JSNum.num s ∧ lb.top = JSNum.num t ∧ lb.left = JSNum.num l ∧
      lb.croppedWidth = some cw ∧ lb.croppedHeight = some ch := by
  obtain ⟨sc, tp, lf, sw, sh, cwo, cho⟩ := lb
  unfold codeLetterboxBad at h
  simp only [Bool.or_eq_false_iff] at h
  rcases sc with s | _ | _ | _ <;> rcases tp with t | _ | _ | _ <;>
    rcases lf with l | _ | _ | _ <;> rcases cwo with _ | cw <;> rcases cho with _ | ch <;>
    simp_all [JSNum.isFinite, jsOptTruthy]

/-- With a non-empty input and both global guards passing, the batch call
succeeds and is the per-item filterMap. -/
theorem transformToCanvas_ok (predictions : List RawDetection) (lb : LetterboxInfoJS)
    (canvas : CanvasSize) (hne : predictions ≠ [])
    (hcv : codeCanvasBad canvas = false) (hlb : codeLetterboxBad lb = false)
    (s t l : ℚ) (cw ch : JSNum) (hs : lb.scale = JSNum.num s) (ht : lb.top = JSNum.num t)
    (hl : lb.left = JSNum.num l) (hcw : lb.croppedWidth = some cw)
    (hch : lb.croppedHeight = some ch) :
    transformToCanvas predictions lb canvas =
      Except.ok (predictions.filterMap (transformDetectionItem s t l cw ch canvas)) := by
  unfold transformToCanvas
  rw [if_neg (by simp [List.isEmpty_eq_false.mpr hne]),
    if_neg (by simp [hcv]), if_neg (by simp [hlb]),
    hs, ht, hl, hcw, hch]

/-- A detection the loop body keeps has a present, 4-element, all-finite
bounding box with nonnegative width and height. -/
theorem transformDetectionItem_some_shape (s t l : ℚ) (cw ch : JSNum) (cv : CanvasSize)
    (p : RawDetection) (d : CanvasDetection)
    (h : transformDetectionItem s t l cw ch cv p = some d) :
    ∃ x y w hh : ℚ,
      p.boundingBox = some [JSNum.num x, JSNum.num y, JSNum.num w, JSNum.num hh] ∧
      0 ≤ w ∧ 0 ≤ hh := by
  unfold transformDetectionItem at h
  rcases hbb : p.boundingBox with _ | bb
  · rw [hbb] at h
    exact absurd h (by simp)
  · rw [hbb] at h
    dsimp only at h
    by_cases hguard : (decide (bb.length ≠ 4) || bb.any (fun v => !v.isFinite)
        || !p.score.isFinite || !p.angle.isFinite) = true
    · rw [if_pos hguard] at h
      exact absurd h (by simp)
    · rw [if_neg hguard] at h
      have hg : (decide (bb.length ≠ 4) || bb.any (fun v => !v.isFinite)
          || !p.score.isFinite || !p.angle.isFinite) = false := Bool.eq_false_iff.mpr hguard
      simp only [Bool.or_eq_false_iff] at hg
      obtain ⟨⟨⟨hlen, hfin⟩, _⟩, _⟩ := hg
      have hlen4 : bb.length = 4 := by simpa using hlen
      rcases bb with _ | ⟨a, _ | ⟨b, _ | ⟨c, _ | ⟨e, rest⟩⟩⟩⟩
      · simp at hlen4
      · simp at hlen4
      · simp at hlen4
      · simp at hlen4
      · have hrest : rest = [] := by simpa using hlen4
        subst hrest
        simp only [List.any_cons, List.any_nil, Bool.or_false, Bool.or_eq_false_iff] at hfin
        obtain ⟨hfa, hfb, hfc, hfe⟩ := hfin
        cases a with
        | nan => simp [JSNum.isFinite] at hfa
        | inf => simp [JSNum.isFinite] at hfa
        | negInf => simp [JSNum.isFinite] at hfa
        | num x =>
          cases b with
          | nan => simp [JSNum.isFinite] at hfb
          | inf => simp [JSNum.isFinite] at hfb
          | negInf => simp [JSNum.isFinite] at hfb
          | num y =>
            cases c with
            | nan => simp [JSNum.isFinite] at hfc
            | inf => simp [JSNum.isFinite] at hfc
            | negInf => simp [JSNum.isFinite] at hfc
            | num w =>
              cases e with
              | nan => simp [JSNum.isFinite] at hfe
              | inf => simp [JSNum.isFinite] at hfe
              | negInf => simp [JSNum.isFinite] at hfe
              | num hh =>
                by_cases hwh : (([JSNum.num x, JSNum.num y, JSNum.num w,
                      JSNum.num hh].getD 2 JSNum.nan).toQ < 0 ∨
                    ([JSNum.num x, JSNum.num y, JSNum.num w,
                      JSNum.num hh].getD 3 JSNum.nan).toQ < 0)
                · rw [if_pos hwh] at h
                  exact absurd h (by simp)
                · push_neg at hwh
                  refine ⟨x, y, w, hh, rfl, ?_, ?_⟩
                  · simpa [List.getD, JSNum.toQ] using hwh.1
                  · simpa [List.getD, JSNum.toQ] using hwh.2

/-- C3: `transformToCanvas` returns `[]` for an empty input without looking
at the letterbox or canvas arguments; it throws only when the input is
non-empty and a global input is invalid in the sense of the claim (canvas
dimension `<= 0`, missing or non-positive crop dimension, non-finite or
non-positive scale, non-finite padding); with valid globals it always
succeeds, producing the per-item filterMap of the loop body; and the loop
body silently drops every detection whose bounding box is missing, not of
length 4, non-finite, or of negative width/height (a remap throw is also a
skip, the `.error => none` arms of the loop body). -/
theorem c3_transform_batch (predictions : List RawDetection) (lb : LetterboxInfoJS)
    (canvas : CanvasSize) :
    (predictions = [] → transformToCanvas predictions lb canvas = Except.ok []) ∧
    (∀ e, transformToCanvas predictions lb canvas = Except.error e →
      predictions ≠ [] ∧ claimGlobalBad lb canvas = true) ∧
    (claimGlobalBad lb canvas = false →
      ∃ s t l : ℚ, ∃ cw ch : JSNum,
        lb.scale = JSNum.num s ∧ lb.top = JSNum.num t ∧ lb.left = JSNum.num l ∧
        lb.croppedWidth = some cw ∧ lb.croppedHeight = some ch ∧
        transformToCanvas predictions lb canvas =
          Except.ok (predictions.filterMap (transformDetectionItem s t l cw ch canvas))) ∧
    (∀ s t l : ℚ, ∀ cw ch : JSNum, ∀ p : RawDetection, claimItemBadBox p = true →
      transformDetectionItem s t l cw ch canvas p = none) := by
  refine ⟨?_, ?_, ?_, ?_⟩
  · intro he
    subst he
    rfl
  · intro e he
    by_cases hemp : predictions = []
    · subst hemp
      exact absurd he (by simp [transformToCanvas])
    · refine ⟨hemp, ?_⟩
      by_cases hcv : codeCanvasBad canvas = true
      · exact (claimGlobalBad_iff lb canvas).mpr (Or.inl hcv)
      · by_cases hlb : codeLetterboxBad lb = true
        · exact (claimGlobalBad_iff lb canvas).mpr (Or.inr hlb)
        · exfalso
          have hcv2 : codeCanvasBad canvas = false := Bool.eq_false_iff.mpr hcv
          have hlb2 : codeLetterboxBad lb = false := Bool.eq_false_iff.mpr hlb
          obtain ⟨s, t, l, cw, ch, hs, ht, hl, hcw, hch⟩ :=
            codeLetterboxBad_false_shape lb hlb2
          rw [transformToCanvas_ok predictions lb canvas hemp hcv2 hlb2
            s t l cw ch hs ht hl hcw hch] at he
          exact absurd he (by simp)
  · intro hfalse
    have hboth : codeCanvasBad canvas = false ∧ codeLetterboxBad lb = false := by
      constructor
      · rcases Bool.eq_false_or_eq_true (codeCanvasBad canvas) with h2 | h2
        · rw [(claimGlobalBad_iff lb canvas).mpr (Or.inl h2)] at hfalse
          exact absurd hfalse (by simp)
        · exact h2
      · rcases Bool.eq_false_or_eq_true (codeLetterboxBad lb) with h2 | h2
        · rw [(claimGlobalBad_iff lb canvas).mpr (Or.inr h2)] at hfalse
          exact absurd hfalse (by simp)
        · exact h2
    obtain ⟨s, t, l, cw, ch, hs, ht, hl, hcw, hch⟩ :=
      codeLetterboxBad_false_shape lb hboth.2
    by_cases hemp : predictions = []
    · subst hemp
      exact ⟨s, t, l, cw, ch, hs, ht, hl, hcw, hch, rfl⟩
    · exact ⟨s, t, l, cw, ch, hs, ht, hl, hcw, hch,
        transformToCanvas_ok predictions lb canvas hemp hboth.1 hboth.2
          s t l cw ch hs ht hl hcw hch⟩
  · intro s t l cw ch p hbad
    cases hitem : transformDetectionItem s t l cw ch canvas p with
    | none => rfl
    | some d =>
      exfalso
      obtain ⟨x, y, w, hh, hbb, hw, hhh⟩ :=
        transformDetectionItem_some_shape s t l cw ch canvas p d hitem
      unfold claimItemBadBox at hbad
      rw [hbb] at hbad
      simp [JSNum.isFinite, not_lt.mpr hw, not_lt.mpr hhh] at hbad

/-- Witness for C3: the empty batch succeeds against a nonsense letterbox
record, and with valid globals a detection without a bounding box is
silently dropped while a valid one is kept. -/
theorem c3_witness :
    transformToCanvas [] ⟨JSNum.nan, JSNum.nan, JSNum.nan, JSNum.nan, JSNum.nan, none, none⟩
      ⟨JSNum.num 0, JSNum.num 0⟩ = Except.ok [] ∧
    transformDetectionItem 1 0 0 (JSNum.num 100) (JSNum.num 100) ⟨JSNum.num 200, JSNum.num 200⟩
      ⟨none, JSNum.num 0, JSNum.num (1/2)⟩ = none := by
  constructor
  · exact (c3_transform_batch []
      ⟨JSNum.nan, JSNum.nan, JSNum.nan, JSNum.nan, JSNum.nan, none, none⟩
      ⟨JSNum.num 0, JSNum.num 0⟩).1 rfl
  · exact (c3_transform_batch []
      ⟨JSNum.nan, JSNum.nan, JSNum.nan, JSNum.nan, JSNum.nan, none, none⟩
      ⟨JSNum.num 200, JSNum.num 200⟩).2.2.2 1 0 0 (JSNum.num 100) (JSNum.num 100)
      ⟨none, JSNum.num 0, JSNum.num (1/2)⟩ rfl

/-- C7: the output of `findValidDetections` is sorted by descending score,
and within each equal-score class the output order is the slot encounter
order (the order of `rawValidDetections`) — the sort is stable. -/
theorem c7_sorted_and_stable (data : List (List JSNum)) (numDetections scoreThreshold : JSNum) :
    (findValidDetections data numDetections scoreThreshold).Pairwise
      (fun a b => b.score ≤ a.score) ∧
    ∀ q : ℚ,
      (findValidDetections data numDetections scoreThreshold).filter
          (fun e => decide (e.score = q)) =
        (rawValidDetections data numDetections scoreThreshold).filter
          (fun e => decide (e.score = q)) :=
  ⟨pairwise_sortByScoreDesc _, fun q => filter_sortByScoreDesc _ q⟩

/-- A successful registration prepends the lower-cased entry. -/
theorem registerObjectSize_ok (reg : Registry) (className : String) (w h : ℚ)
    (ar : Option ℚ) (reg2 : Registry)
    (hreg : registerObjectSize reg className w h ar = Except.ok reg2) :
    reg2 = (jsToLowerCase className, ⟨w, h, ar.getD (w / h)⟩) :: reg := by
  unfold registerObjectSize at hreg
  split at hreg
  · exact absurd hreg (by simp)
  · split at hreg
    · exact absurd hreg (by simp)
    · injection hreg with h2
      exact h2.symm

/-- C2 counterexample: `registerObjectSize` stores "Card" under "card", but
the depth-estimation lookup of `estimateDepthFromSize` uses the raw query
string, so the casing variant "CARD" does not resolve to the entry (only the
already-lower-case "card" does) — the lookup side is not lower-cased. -/
theorem c2_counterexample :
    registerObjectSize [] "Card" 1 2 none = Except.ok [("card", ⟨1, 2, 1/2⟩)] ∧
    lookupObjectSizeRaw [("card", ⟨1, 2, 1/2⟩)] "CARD" = none ∧
    lookupObjectSizeRaw [("card", ⟨1, 2, 1/2⟩)] "card" = some ⟨1, 2, 1/2⟩ := by
  refine ⟨?_, by rfl, by rfl⟩
  unfold registerObjectSize
  rw [if_neg (by decide), if_neg (by norm_num)]
  rfl

/-- C2 (amended): after a successful `registerObjectSize` the entry is stored
under the lower-cased name; the normalizing depth-estimation lookup (the one
of `estimate3DInfo` in the 3-D estimator variant) resolves every casing
variant of the name to that entry; the raw lookup of `estimateDepthFromSize`
resolves the lower-cased name (only); and re-registering the same class
replaces its entry. -/
theorem c2_registry_case_insensitive (reg : Registry) (name : String) (w h : ℚ)
    (ar : Option ℚ) (reg2 : Registry)
    (hreg : registerObjectSize reg name w h ar = Except.ok reg2) :
    (∀ variant : String, jsToLowerCase variant = jsToLowerCase name →
      lookupObjectSizeNormalized reg2 variant = some ⟨w, h, ar.getD (w / h)⟩) ∧
    lookupObjectSizeRaw reg2 (jsToLowerCase name) = some ⟨w, h, ar.getD (w / h)⟩ ∧
    (∀ w2 h2 : ℚ, ∀ ar2 : Option ℚ, ∀ reg3 : Registry,
      registerObjectSize reg2 name w2 h2 ar2 = Except.ok reg3 →
      lookupObjectSizeNormalized reg3 name = some ⟨w2, h2, ar2.getD (w2 / h2)⟩) := by
  have hreg2 := registerObjectSize_ok reg name w h ar reg2 hreg
  subst hreg2
  refine ⟨?_, ?_, ?_⟩
  · intro v hv
    unfold lookupObjectSizeNormalized
    rw [hv]
    simp [List.lookup]
  · unfold lookupObjectSizeRaw
    simp [List.lookup]
  · intro w2 h2 ar2 reg3 hreg3
    have hreg3e := registerObjectSize_ok _ name w2 h2 ar2 reg3 hreg3
    subst hreg3e
    unfold lookupObjectSizeNormalized
    simp [List.lookup]

/-- Witness for C2 at the spec's example: register "Card", query "CARD"
through the normalizing lookup and "card" through the raw one. -/
theorem c2_witness :
    lookupObjectSizeNormalized [("card", ⟨1, 2, 1/2⟩)] "CARD" = some ⟨1, 2, 1/2⟩ ∧
    lookupObjectSizeRaw [("card", ⟨1, 2, 1/2⟩)] "card" = some ⟨1, 2, 1/2⟩ := by
  have hreg : registerObjectSize [] "Card" 1 2 none = Except.ok [("card", ⟨1, 2, 1/2⟩)] := by
    unfold registerObjectSize
    rw [if_neg (by decide), if_neg (by norm_num)]
    rfl
  have h := c2_registry_case_insensitive [] "Card" 1 2 none [("card", ⟨1, 2, 1/2⟩)] hreg
  exact ⟨h.1 "CARD" (by decide), h.2.1⟩

/-- C1 counterexample: for the registered class "card" with real size 1 by 2
meters, a 1 by 1 pixel box and focal length 1000, the known-size branch of
`estimateDepthFromSize` returns 100 (the minimum of the two estimates capped
by the artificial ceiling of 100), while the rule the claim states — average
within 25% tolerance, otherwise the larger-dimension estimate, no ceiling —
yields 1000. -/
theorem c1_counterexample :
    estimateDepthFromSize [("card", ⟨1, 2, 1/2⟩)] (0, 0, 1, 1)
        ⟨1000, 640, 480, some "card"⟩ = Except.ok ((100 : ℚ) : ℝ) ∧
    knownSizeDepthClaim 1 2 1000 1 1 = 1000 ∧
    ((100 : ℚ) : ℝ) ≠ ((1000 : ℚ) : ℝ) := by
  refine ⟨?_, ?_, by norm_num⟩
  · unfold estimateDepthFromSize
    dsimp only
    rw [if_neg (by norm_num), if_neg (by norm_num)]
    rw [show (some "card").getD "default" = "card" from rfl]
    have hlook : (if ("card" : String) = "" then none
        else lookupObjectSizeRaw [("card", ⟨1, 2, 1/2⟩)] "card") =
        some (⟨1, 2, 1/2⟩ : ObjectSize) := by rfl
    rw [hlook]
    dsimp only
    norm_num [max_def, min_def]
  · have habs : |(1 : ℚ) * 1000 / 1 - 2 * 1000 / 1| = 1000 := by
      rw [show (1 : ℚ) * 1000 / 1 - 2 * 1000 / 1 = -1000 by norm_num, abs_neg,
        abs_of_pos (by norm_num : (0 : ℚ) < 1000)]
    have hmax : Max.max (Max.max ((1 : ℚ) * 1000 / 1) (2 * 1000 / 1))
        DIVISION_SAFETY_EPSILON = 2000 := by
      rw [max_eq_right (by norm_num : (1 : ℚ) * 1000 / 1 ≤ 2 * 1000 / 1),
        max_eq_left (by norm_num [DIVISION_SAFETY_EPSILON])]
      norm_num
    unfold knownSizeDepthClaim
    dsimp only
    rw [habs, hmax, if_neg (by norm_num [CONSISTENCY_EPS]), if_neg (by norm_num)]
    norm_num

/-- C1 (amended): the fusion-based known-size path (`estimate3DInfo` of
3d-helper.ts) behaves exactly as the claim states for every positive box,
image width and registered real size: the two single-dimension estimates are
averaged when they agree within the 25% relative tolerance, otherwise the
estimate from the larger box dimension is returned; no clamp is applied, the
result is strictly positive, and it is unbounded above (no artificial
ceiling).  The registry-based known-size branch of `estimateDepthFromSize`
instead returns `min` of the estimates clamped to `[0.1, 100]` (see the
counterexample). -/
theorem c1_known_size_depth :
    (∀ x y w h imageWidth realWidth realHeight : ℚ,
      0 < w → 0 < h → 0 < imageWidth → 0 < realWidth → 0 < realHeight →
      ∃ d, estimate3DInfoDepth (x, y, w, h) imageWidth (realWidth, realHeight) = Except.ok d ∧
        d = knownSizeDepthClaim realWidth realHeight (8/10 * imageWidth) w h ∧ 0 < d) ∧
    (∀ M : ℚ, ∃ w : ℚ, 0 < w ∧
      ∃ d, estimate3DInfoDepth (0, 0, w, w) 10 (1, 1) = Except.ok d ∧ M < d) := by
  have part1 : ∀ x y w h imageWidth realWidth realHeight : ℚ,
      0 < w → 0 < h → 0 < imageWidth → 0 < realWidth → 0 < realHeight →
      ∃ d, estimate3DInfoDepth (x, y, w, h) imageWidth (realWidth, realHeight) = Except.ok d ∧
        d = knownSizeDepthClaim realWidth realHeight (8/10 * imageWidth) w h ∧ 0 < d := by
    intro x y w h iw rw0 rh hw hh hiw hrw hrh
    have hf : 0 < 8/10 * iw := by positivity
    refine ⟨knownSizeDepthClaim rw0 rh (8/10 * iw) w h, ?_, rfl, ?_⟩
    · unfold estimate3DInfoDepth knownSizeDepthClaim
      dsimp only
      rw [if_neg (not_le.mpr hf)]
    · unfold knownSizeDepthClaim
      dsimp only
      have hdW : 0 < rw0 * (8/10 * iw) / w := by positivity
      have hdH : 0 < rh * (8/10 * iw) / h := by positivity
      split
      · linarith
      · split
        · exact hdH
        · exact hdW
  refine ⟨part1, ?_⟩
  intro M
  have hwpos : (0 : ℚ) < 1 / (|M| + 1) := by positivity
  obtain ⟨d, hd, hdeq, _⟩ := part1 0 0 (1 / (|M| + 1)) (1 / (|M| + 1)) 10 1 1
    hwpos hwpos (by norm_num) (by norm_num) (by norm_num)
  refine ⟨1 / (|M| + 1), hwpos, d, hd, ?_⟩
  have hval : knownSizeDepthClaim 1 1 (8/10 * 10) (1 / (|M| + 1)) (1 / (|M| + 1)) =
      8 * (|M| + 1) := by
    unfold knownSizeDepthClaim
    dsimp only
    simp only [sub_self, abs_zero, zero_div]
    rw [if_pos (by norm_num [CONSISTENCY_EPS])]
    have hMp : (0 : ℚ) < |M| + 1 := by positivity
    have hne : (|M| + 1 : ℚ) ≠ 0 := ne_of_gt hMp
    field_simp
  rw [hdeq, hval]
  have hM := le_abs_self M
  linarith

/-- Witness for C1: a box twice as wide as tall for a square object — the
estimates disagree (relative difference one half), the box is wider than
tall, so the width-derived estimate 4 is returned, positive and unclamped;
and a depth above 1000 is reachable. -/
theorem c1_witness :
    (∃ d, estimate3DInfoDepth (0, 0, 2, 1) 10 (1, 1) = Except.ok d ∧
      d = knownSizeDepthClaim 1 1 (8/10 * 10) 2 1 ∧ 0 < d) ∧
    (∃ w : ℚ, 0 < w ∧
      ∃ d, estimate3DInfoDepth (0, 0, w, w) 10 (1, 1) = Except.ok d ∧ 1000 < d) := by
  exact ⟨c1_known_size_depth.1 0 0 2 1 10 1 1 (by norm_num) (by norm_num) (by norm_num)
    (by norm_num) (by norm_num), c1_known_size_depth.2 1000⟩

end MitsukeLive
